import Mathlib

/-!
Shallow embedding of the mailbox-ingestion core of `Ai-Email-Sticky.py`
(record store, processed-uid set, cursor metadata, classifier/summarizer
adapter, and the `GmailPoller.check_mail` ingestion cycle), together with
theorems settling the specification claims.

Text is modelled as `List Char`.  SQLite rows are Lean structures, the
database is an explicit state record, and the network (IMAP server, OpenAI
service) is an oracle environment: the values the remote side returns are
inputs of the cycle function, while everything the program computes from
them is translated from the source.
-/

set_option linter.unusedVariables false

namespace AiEmailSticky

/-- ASCII whitespace, as recognised by Python's `str.strip()` / regex `\s`
on the ASCII range. -/
def pyIsSpace (c : Char) : Bool :=
  c = ' ' || c = '\t' || c = '\n' || c = '\r' || c = '\x0b' || c = '\x0c'

/-- Line-boundary characters of Python's `str.splitlines()`. -/
def pyIsLineBreak (c : Char) : Bool :=
  c = '\n' || c = '\r' || c = '\x0b' || c = '\x0c' || c = '\x1c' ||
  c = '\x1d' || c = '\x1e' || c = '\x85' || c = ' ' || c = ' '

/-- Python `str.lstrip()`. -/
def pyLstrip (l : List Char) : List Char := l.dropWhile pyIsSpace

/-- Python `str.rstrip()`. -/
def pyRstrip (l : List Char) : List Char := (l.reverse.dropWhile pyIsSpace).reverse

/-- Python `str.strip()`. -/
def pyStrip (l : List Char) : List Char := pyRstrip (pyLstrip l)

/-- Worker for `splitlines`: `acc` holds the current line reversed. -/
def splitlinesGo : List Char → List Char → List (List Char)
  | acc, [] => [acc.reverse]
  | acc, '\r' :: '\n' :: rest =>
    acc.reverse :: (if rest.isEmpty then [] else splitlinesGo [] rest)
  | acc, c :: rest =>
    if pyIsLineBreak c then
      acc.reverse :: (if rest.isEmpty then [] else splitlinesGo [] rest)
    else splitlinesGo (c :: acc) rest

/-- Python `str.splitlines()` (a trailing line break emits no empty line;
the empty string has no lines). -/
def splitlines (l : List Char) : List (List Char) :=
  match l with
  | [] => []
  | _ => splitlinesGo [] l

/-- Worker for `collapseWs`: the flag records whether the previous input
character was whitespace (so a run is replaced by a single space). -/
def collapseWsGo : Bool → List Char → List Char
  | _, [] => []
  | prevWs, c :: rest =>
    if pyIsSpace c then
      if prevWs then collapseWsGo true rest
      else ' ' :: collapseWsGo true rest
    else c :: collapseWsGo false rest

/-- Python `re.sub(r"\s+", " ", s)`: each maximal whitespace run becomes a
single space. -/
def collapseWs (l : List Char) : List Char := collapseWsGo false l

/-- `heuristic_summary(text, max_len)` from the source: first non-blank,
non-`>`-prefixed line, whitespace-collapsed, truncated, right-stripped;
otherwise the whole stripped body with newlines as spaces, truncated,
right-stripped. -/
def heuristic_summary (text : List Char) (max_len : Nat) : List Char :=
  match (splitlines text).find? (fun line =>
      let s := pyStrip line
      !s.isEmpty && s.head? != some '>') with
  | some line =>
    let s := collapseWs (pyStrip line)
    pyRstrip (s.take max_len)
  | none =>
    pyRstrip (((pyStrip text).map (fun c => if c = '\n' then ' ' else c)).take max_len)

/-! ### Lemmas about the string helpers -/

theorem mem_of_mem_dropWhile {p : Char → Bool} {l : List Char} {c : Char}
    (h : c ∈ l.dropWhile p) : c ∈ l := by
  induction l with
  | nil => simp at h
  | cons a t ih =>
    by_cases hp : p a
    · simp only [List.dropWhile_cons, hp, if_true] at h
      exact List.mem_cons_of_mem _ (ih h)
    · simp only [List.dropWhile_cons, hp, if_false] at h
      exact h

theorem isEmpty_eq_false_of_ne_nil {l : List Char} (h : l ≠ []) : l.isEmpty = false := by
  cases l with
  | nil => exact absurd rfl h
  | cons a t => rfl

theorem mem_of_mem_pyRstrip {l : List Char} {c : Char} (h : c ∈ pyRstrip l) : c ∈ l := by
  unfold pyRstrip at h
  rw [List.mem_reverse] at h
  have := mem_of_mem_dropWhile h
  rwa [List.mem_reverse] at this

theorem head?_dropWhile_not {p : Char → Bool} {l : List Char} {c : Char}
    (h : (l.dropWhile p).head? = some c) : p c = false := by
  induction l with
  | nil => simp at h
  | cons a t ih =>
    rw [List.dropWhile_cons] at h
    by_cases hp : p a
    · rw [if_pos hp] at h
      exact ih h
    · rw [if_neg hp] at h
      simp only [List.head?_cons, Option.some.injEq] at h
      subst h
      simpa using hp

theorem pyRstrip_getLast? {l : List Char} {c : Char}
    (h : (pyRstrip l).getLast? = some c) : pyIsSpace c = false := by
  unfold pyRstrip at h
  rw [List.getLast?_reverse] at h
  exact head?_dropWhile_not h

theorem dropWhile_length_le (p : Char → Bool) (l : List Char) :
    (l.dropWhile p).length ≤ l.length := by
  induction l with
  | nil => simp
  | cons a t ih =>
    rw [List.dropWhile_cons]
    by_cases hp : p a
    · rw [if_pos hp]
      exact Nat.le_succ_of_le ih
    · rw [if_neg hp]

theorem pyRstrip_length_le (l : List Char) : (pyRstrip l).length ≤ l.length := by
  unfold pyRstrip
  rw [List.length_reverse]
  calc (l.reverse.dropWhile pyIsSpace).length ≤ l.reverse.length :=
        dropWhile_length_le _ _
    _ = l.length := List.length_reverse l

theorem mem_collapseWsGo {b : Bool} {l : List Char} {c : Char}
    (h : c ∈ collapseWsGo b l) : c = ' ' ∨ pyIsSpace c = false := by
  induction l generalizing b with
  | nil => simp [collapseWsGo] at h
  | cons a t ih =>
    rw [collapseWsGo] at h
    by_cases hp : pyIsSpace a
    · rw [if_pos hp] at h
      cases b with
      | true =>
        rw [if_pos rfl] at h
        exact ih h
      | false =>
        rw [if_neg (by simp)] at h
        rcases List.mem_cons.1 h with h | h
        · exact Or.inl h
        · exact ih h
    · rw [if_neg hp] at h
      rcases List.mem_cons.1 h with h | h
      · subst h
        exact Or.inr (by simpa using hp)
      · exact ih h

theorem newline_not_mem_collapseWs (l : List Char) : '\n' ∉ collapseWs l := by
  intro h
  rcases mem_collapseWsGo h with h | h
  · exact absurd h (by decide)
  · exact absurd h (by decide)

/-- Claim C10: `heuristic_summary` is total, its result is at most
`max_len` characters long, contains no newline, and has no trailing
whitespace. -/
theorem spec_C10 (text : List Char) (max_len : Nat) :
    (heuristic_summary text max_len).length ≤ max_len ∧
    '\n' ∉ heuristic_summary text max_len ∧
    ∀ c, (heuristic_summary text max_len).getLast? = some c → pyIsSpace c = false := by
  unfold heuristic_summary
  cases hfind : (splitlines text).find? (fun line =>
      let s := pyStrip line
      !s.isEmpty && s.head? != some '>') with
  | none =>
    refine ⟨?_, ?_, ?_⟩
    · calc (pyRstrip (((pyStrip text).map
            (fun c => if c = '\n' then ' ' else c)).take max_len)).length
          ≤ (((pyStrip text).map (fun c => if c = '\n' then ' ' else c)).take max_len).length :=
            pyRstrip_length_le _
        _ ≤ max_len := by
            rw [List.length_take]
            exact Nat.min_le_left _ _
    · intro h
      have h2 := mem_of_mem_pyRstrip h
      have h3 := List.mem_of_mem_take h2
      rcases List.mem_map.1 h3 with ⟨a, _, ha⟩
      by_cases hc : a = '\n' <;> simp [hc] at ha
    · intro c hc
      exact pyRstrip_getLast? hc
  | some line =>
    refine ⟨?_, ?_, ?_⟩
    · calc (pyRstrip ((collapseWs (pyStrip line)).take max_len)).length
          ≤ ((collapseWs (pyStrip line)).take max_len).length := pyRstrip_length_le _
        _ ≤ max_len := by
            rw [List.length_take]
            exact Nat.min_le_left _ _
    · intro h
      have h2 := mem_of_mem_pyRstrip h
      have h3 := List.mem_of_mem_take h2
      exact newline_not_mem_collapseWs _ h3
    · intro c hc
      exact pyRstrip_getLast? hc

/-- Witness for C10 at a concrete input. -/
theorem spec_C10_witness :
    (heuristic_summary "  hi  there ".toList 140).getLast? = some 'e' ∧
    pyIsSpace 'e' = false :=
  ⟨by decide, (spec_C10 "  hi  there ".toList 140).2.2 'e' (by decide)⟩

/-! ### Decimal strings: Python `str(n)` and `int(s)` on the values this
program writes (all-digit strings). -/

/-- Fuel-driven worker for `natToStr` (the fuel `n` itself always
suffices, since `n / 10 < n`). -/
def natToStrGo (fuel n : Nat) : List Char :=
  match fuel with
  | 0 => [Nat.digitChar n]
  | fuel + 1 =>
    if n < 10 then [Nat.digitChar n]
    else natToStrGo fuel (n / 10) ++ [Nat.digitChar (n % 10)]

/-- Python `str(n)` for a natural number. -/
def natToStr (n : Nat) : List Char := natToStrGo n n

theorem natToStrGo_irrel : ∀ f g n : Nat, n ≤ f → n ≤ g →
    natToStrGo f n = natToStrGo g n := by
  intro f
  induction f with
  | zero =>
    intro g n hf hg
    have hn : n = 0 := Nat.le_zero.mp hf
    subst hn
    cases g with
    | zero => rfl
    | succ g => simp [natToStrGo]
  | succ f ih =>
    intro g n hf hg
    cases g with
    | zero =>
      have hn : n = 0 := Nat.le_zero.mp hg
      subst hn
      simp [natToStrGo]
    | succ g =>
      by_cases h10 : n < 10
      · simp [natToStrGo, h10]
      · simp only [natToStrGo, if_neg h10]
        have hd : n / 10 < n := Nat.div_lt_self (by omega) (by omega)
        rw [ih g (n / 10) (by omega) (by omega)]

/-- The recursion equation of `natToStr`. -/
theorem natToStr_eq (n : Nat) : natToStr n =
    if n < 10 then [Nat.digitChar n]
    else natToStr (n / 10) ++ [Nat.digitChar (n % 10)] := by
  unfold natToStr
  by_cases h10 : n < 10
  · cases n with
    | zero => simp [natToStrGo, h10]
    | succ k => simp [natToStrGo, h10]
  · cases n with
    | zero => exact absurd (by omega) h10
    | succ k =>
      simp only [natToStrGo, if_neg h10]
      have hd : (k + 1) / 10 < k + 1 := Nat.div_lt_self (by omega) (by omega)
      rw [natToStrGo_irrel k ((k + 1) / 10) ((k + 1) / 10) (by omega) (Nat.le_refl _)]

/-- Python `int(s)` as used on the cursor metadata and IMAP uids: defined
on non-empty all-digit strings, `ValueError` (`none`) otherwise. -/
def strToNat? (l : List Char) : Option Nat :=
  if !l.isEmpty && l.all Char.isDigit then
    some (l.foldl (fun a c => a * 10 + (c.toNat - 48)) 0)
  else none

theorem natToStr_ne_nil (n : Nat) : natToStr n ≠ [] := by
  rw [natToStr_eq]
  split <;> simp

theorem digitChar_isDigit {d : Nat} (h : d < 10) : (Nat.digitChar d).isDigit = true := by
  interval_cases d <;> decide

theorem digitChar_toNat {d : Nat} (h : d < 10) : (Nat.digitChar d).toNat - 48 = d := by
  interval_cases d <;> decide

theorem natToStr_all_digit (n : Nat) : (natToStr n).all Char.isDigit = true := by
  induction n using Nat.strong_induction_on with
  | _ n ih =>
    rw [natToStr_eq]
    split
    · rename_i h
      simp [digitChar_isDigit h]
    · rename_i h
      rw [List.all_append]
      have h1 := ih (n / 10) (Nat.div_lt_self (by omega) (by omega))
      have h2 := digitChar_isDigit (Nat.mod_lt n (show 0 < 10 by omega))
      simp [h1, h2]

theorem natToStr_foldl (n : Nat) :
    ∀ a : Nat, (natToStr n).foldl (fun a c => a * 10 + (c.toNat - 48)) a
      = a * 10 ^ (natToStr n).length + n := by
  induction n using Nat.strong_induction_on with
  | _ n ih =>
    intro a
    rw [natToStr_eq]
    split
    · rename_i h
      simp [digitChar_toNat h]
    · rename_i h
      rw [List.foldl_append, List.length_append]
      have hlt : n / 10 < n := Nat.div_lt_self (by omega) (by omega)
      rw [ih (n / 10) hlt a]
      simp only [List.foldl_cons, List.foldl_nil, List.length_cons, List.length_nil]
      rw [digitChar_toNat (Nat.mod_lt n (show 0 < 10 by omega))]
      rw [pow_succ]
      have := Nat.div_add_mod n 10
      ring_nf
      omega

theorem strToNat_natToStr (n : Nat) : strToNat? (natToStr n) = some n := by
  unfold strToNat?
  rw [isEmpty_eq_false_of_ne_nil (natToStr_ne_nil n), natToStr_all_digit n]
  simp only [Bool.not_false, Bool.true_and, if_true]
  rw [natToStr_foldl n 0]
  simp

theorem natToStr_injective {a b : Nat} (h : natToStr a = natToStr b) : a = b := by
  have := strToNat_natToStr a
  rw [h, strToNat_natToStr b] at this
  exact (Option.some.injEq _ _ ▸ this).symm

/-! ### Data model: the SQLite store of `Ai-Email-Sticky.py` -/

/-- A row of the `tasks` table (`id` is the AUTOINCREMENT primary key;
timestamps are modelled as integers, `completed_at`/`archived_at` are the
nullable columns). -/
structure Task where
  id : Nat
  email_uid : Option (List Char)
  subject : List Char
  snippet : List Char
  task_text : List Char
  created_at : Int
  completed_at : Option Int
  is_completed : Bool
  archived_at : Option Int
deriving Repr, DecidableEq

/-- The durable store: `tasks` table, `processed_uids` table (a set keyed
by `email_uid`), `metadata` key-value table, and the next AUTOINCREMENT id. -/
structure DB where
  tasks : List Task
  processed_uids : List (List Char)
  metadata : List (List Char × List Char)
  nextId : Nat
deriving Repr, DecidableEq

/-- A freshly created store (`ensure_db` on a new file). -/
def emptyDB : DB := { tasks := [], processed_uids := [], metadata := [], nextId := 1 }

/-- `INSERT ... ON CONFLICT(key) DO UPDATE SET value=excluded.value` on the
`metadata` table (the key is the primary key, so it occurs at most once). -/
def upsertMeta (key value : List Char) : List (List Char × List Char) → List (List Char × List Char)
  | [] => [(key, value)]
  | kv :: rest => if kv.1 = key then (key, value) :: rest else kv :: upsertMeta key value rest

/-- `save_metadata(key, value)` from the source. -/
def save_metadata (key value : List Char) (db : DB) : DB :=
  { db with metadata := upsertMeta key value db.metadata }

/-- `get_metadata(key, default)` from the source. -/
def get_metadata (key default : List Char) (db : DB) : List Char :=
  match db.metadata.find? (fun kv => kv.1 = key) with
  | some kv => kv.2
  | none => default

/-- `is_uid_processed(uid)` from the source. -/
def is_uid_processed (uid : List Char) (db : DB) : Bool :=
  decide (uid ∈ db.processed_uids)

/-- `mark_uid_processed(uid)` from the source (`INSERT OR IGNORE`). -/
def mark_uid_processed (uid : List Char) (db : DB) : DB :=
  if uid ∈ db.processed_uids then db
  else { db with processed_uids := db.processed_uids ++ [uid] }

/-- Python truthiness of the optional `email_uid` argument: `None` and the
empty string are falsy. -/
def pyTruthyStr : Option (List Char) → Bool
  | none => false
  | some s => !s.isEmpty

/-- `add_task(task_text, subject, snippet, email_uid)` from the source:
skip when `email_uid` is truthy and already processed, otherwise insert the
row and (for a truthy `email_uid`) mark the uid processed. -/
def add_task (task_text subject snippet : List Char) (email_uid : Option (List Char))
    (now : Int) (db : DB) : Bool × DB :=
  if pyTruthyStr email_uid && is_uid_processed (email_uid.getD []) db then (false, db)
  else
    let t : Task := { id := db.nextId, email_uid := email_uid, subject := subject,
                      snippet := snippet, task_text := task_text, created_at := now,
                      completed_at := none, is_completed := false, archived_at := none }
    let db1 := { db with tasks := db.tasks ++ [t], nextId := db.nextId + 1 }
    let db2 := if pyTruthyStr email_uid then mark_uid_processed (email_uid.getD []) db1 else db1
    (true, db2)

/-- `ORDER BY is_completed, id DESC`: incomplete rows first, most recent id
first within each group. -/
def taskOrder (a b : Task) : Bool :=
  if a.is_completed = b.is_completed then decide (b.id ≤ a.id) else !a.is_completed

/-- The `SELECT ... WHERE archived_at IS NULL ORDER BY is_completed, id DESC`
read used by `list_active_tasks`. -/
def activeRowsSorted (db : DB) : List Task :=
  List.insertionSort (fun a b => taskOrder a b = true)
    (db.tasks.filter (fun t => t.archived_at = none))

/-- The column projection of the `SELECT` in `list_active_tasks`:
`(id, task_text, is_completed, completed_at, subject)`. -/
def rowView (t : Task) : Nat × List Char × Bool × Option Int × List Char :=
  (t.id, t.task_text, t.is_completed, t.completed_at, t.subject)

/-- `done and comp_at and fromisoformat(comp_at) < cutoff`: completed rows
whose completion timestamp is older than the retention cutoff. -/
def staleCompleted (cutoff : Int) (t : Task) : Bool :=
  t.is_completed && match t.completed_at with
    | some ca => decide (ca < cutoff)
    | none => false

/-- `list_active_tasks(retention_hours, return_counts=True)` from the
source: read active rows, archive completed rows older than the retention
cutoff, re-read if any archival occurred, and return the rows plus the
active/completed counts together with the updated store.  `now` is the
value of `datetime.utcnow()` (seconds); the retention cutoff is
`now - retention_hours * 3600`. -/
def list_active_tasks (retention_hours : Int) (now : Int) (db : DB) :
    List (Nat × List Char × Bool × Option Int × List Char) × Nat × Nat × DB :=
  let cutoff := now - retention_hours * 3600
  let rows := activeRowsSorted db
  let to_archive := (rows.filter (staleCompleted cutoff)).map (fun t => t.id)
  let rowsdb :=
    if to_archive.isEmpty then (rows, db)
    else
      let db1 := { db with tasks := db.tasks.map (fun t =>
        if t.id ∈ to_archive then { t with archived_at := some now } else t) }
      (activeRowsSorted db1, db1)
  let db1 := rowsdb.2
  let active_count := db1.tasks.countP (fun t => decide (t.archived_at = none) && !t.is_completed)
  let completed_count := db1.tasks.countP (fun t => decide (t.archived_at = none) && t.is_completed)
  (rowsdb.1.map rowView, active_count, completed_count, db1)

/-- `mark_task_completed(task_id, done)` from the source. -/
def mark_task_completed (task_id : Nat) (done : Bool) (now : Int) (db : DB) : DB :=
  { db with tasks := db.tasks.map (fun t =>
      if t.id = task_id then
        if done then { t with is_completed := true, completed_at := some now }
        else { t with is_completed := false, completed_at := none }
      else t) }

/-- `delete_task(task_id)` from the source: removes the task row only (the
`processed_uids` table is untouched). -/
def delete_task (task_id : Nat) (db : DB) : DB :=
  { db with tasks := db.tasks.filter (fun t => t.id ≠ task_id) }

/-- `archive_all_completed_now()` from the source; returns the number of
rows updated (`cur.rowcount`). -/
def archive_all_completed_now (now : Int) (db : DB) : Nat × DB :=
  (db.tasks.countP (fun t => decide (t.archived_at = none) && t.is_completed),
   { db with tasks := db.tasks.map (fun t =>
       if t.archived_at = none ∧ t.is_completed then { t with archived_at := some now } else t) })

/-! ### Classifier/summarizer adapter (`llm_summary`, `ai_classify_label`)

The remote OpenAI call is an oracle: `CallResult` is what
`client.chat.completions.create(...)` produces (an exception, or a message
whose `content` is an optional string).  Everything computed from it is
translated from the source. -/

/-- Outcome of the remote chat-completions call. -/
inductive CallResult where
  | failure
  | success (content : Option (List Char))
deriving Repr, DecidableEq

/-- Adapter inputs: whether the OpenAI SDK imported, the `api_key`
argument (`None` ≡ `[]`), the `OPENAI_API_KEY` environment variable, and
the remote call outcome. -/
structure AIConfig where
  sdkAvailable : Bool
  apiKeyArg : List Char
  envApiKey : List Char
  callResult : CallResult

/-- `api_key = api_key or os.getenv("OPENAI_API_KEY", "")`. -/
def effective_api_key (cfg : AIConfig) : List Char :=
  if cfg.apiKeyArg.isEmpty then cfg.envApiKey else cfg.apiKeyArg

/-- The adapter can reach the remote service: SDK importable and a
non-empty key. -/
def ai_available (cfg : AIConfig) : Bool :=
  cfg.sdkAvailable && !(effective_api_key cfg).isEmpty

/-- ASCII model of regex `\W` (non-word character). -/
def nonWord (c : Char) : Bool := !(c.isAlphanum || c = '_')

/-- `re.sub(r"^\W+|\W+$", "", out)`: strip the leading and trailing runs
of non-word characters. -/
def stripNonWordEnds (l : List Char) : List Char :=
  ((l.dropWhile nonWord).reverse.dropWhile nonWord).reverse

/-- `llm_summary(text, subject, ...)` from the source.  A `None` message
content makes `.strip()` raise inside the `try`, which the `except` maps
to the heuristic summary with mode `FALLBACK`. -/
def llm_summary (cfg : AIConfig) (text subject : List Char) (max_len : Nat) :
    List Char × List Char :=
  if !cfg.sdkAvailable then (heuristic_summary text max_len, "OFF".toList)
  else if (effective_api_key cfg).isEmpty then (heuristic_summary text max_len, "OFF".toList)
  else match cfg.callResult with
    | .failure => (heuristic_summary text max_len, "FALLBACK".toList)
    | .success none => (heuristic_summary text max_len, "FALLBACK".toList)
    | .success (some content) =>
      let out := stripNonWordEnds (pyStrip content)
      let res := pyStrip (out.take max_len)
      (if res.isEmpty then heuristic_summary text max_len else res, "ON".toList)

/-- `ai_classify_label(text, subject, ...)` from the source. -/
def ai_classify_label (cfg : AIConfig) (text subject : List Char) : List Char × List Char :=
  if !cfg.sdkAvailable then ("actionable".toList, "OFF".toList)
  else if (effective_api_key cfg).isEmpty then ("actionable".toList, "OFF".toList)
  else match cfg.callResult with
    | .failure => ("actionable".toList, "FALLBACK".toList)
    | .success content =>
      let label := (pyStrip (content.getD [])).map Char.toLower
      if "market".toList <:+: label then ("marketing".toList, "ON".toList)
      else if "fyi".toList <:+: label then ("fyi".toList, "ON".toList)
      else ("actionable".toList, "ON".toList)

/-- Worker for `drop_labels_csv.split(",")`. -/
def splitOnCommaGo : List Char → List Char → List (List Char)
  | acc, [] => [acc.reverse]
  | acc, c :: rest =>
    if c = ',' then acc.reverse :: splitOnCommaGo [] rest
    else splitOnCommaGo (c :: acc) rest

/-- `{x.strip().lower() for x in drop_labels_csv.split(",") if x.strip()}`:
the configured drop-label set (as a list; only membership is used). -/
def parseDropLabels (csv : List Char) : List (List Char) :=
  ((splitOnCommaGo [] csv).filter (fun x => !(pyStrip x).isEmpty)).map
    (fun x => (pyStrip x).map Char.toLower)

/-- The classification-drop test of the ingestion loop:
`cls_label in drop_set`. -/
def classify_drops (drop_labels_csv label : List Char) : Bool :=
  decide (label ∈ parseDropLabels drop_labels_csv)

/-- Claim C4, amended: when the classification adapter is unavailable
(SDK missing or no API key) or the remote call errors, `ai_classify_label`
returns the label `actionable`; the message is then dropped by the
classification step only when `actionable` itself belongs to the
configured drop-label set — with any drop set not containing
`actionable` (such as the default `marketing, fyi`), it is never dropped. -/
theorem spec_C4 (cfg : AIConfig) (text subject csv : List Char)
    (h : ai_available cfg = false ∨ cfg.callResult = CallResult.failure) :
    (ai_classify_label cfg text subject).1 = "actionable".toList ∧
    ("actionable".toList ∉ parseDropLabels csv →
      classify_drops csv (ai_classify_label cfg text subject).1 = false) := by
  have hlab : (ai_classify_label cfg text subject).1 = "actionable".toList := by
    unfold ai_classify_label
    by_cases hs : cfg.sdkAvailable
    · rw [if_neg (by simp [hs])]
      by_cases hk : (effective_api_key cfg).isEmpty
      · rw [if_pos hk]
      · rw [if_neg hk]
        rcases h with h | h
        · exfalso
          unfold ai_available at h
          rw [hs] at h
          simp at h
          rw [h] at hk
          exact hk rfl
        · rw [h]
    · rw [if_pos (by simp [hs])]
  refine ⟨hlab, fun hna => ?_⟩
  rw [hlab]
  unfold classify_drops
  simpa using hna

/-- Counterexample to claim C4 as stated: with the adapter unavailable
(SDK not importable) and the configured drop-label set `actionable`, the
classification step does drop the message — "never dropped by the
classification step for every configuration" fails on the code. -/
theorem spec_C4_cex :
    (ai_classify_label
        { sdkAvailable := false, apiKeyArg := [], envApiKey := [],
          callResult := CallResult.failure } [] []).1 = "actionable".toList ∧
    classify_drops "actionable".toList
      (ai_classify_label
        { sdkAvailable := false, apiKeyArg := [], envApiKey := [],
          callResult := CallResult.failure } [] []).1 = true := by
  constructor <;> decide

/-- Witness for the amended C4 at the default drop set. -/
theorem spec_C4_witness :
    classify_drops "marketing, fyi".toList
      (ai_classify_label
        { sdkAvailable := false, apiKeyArg := [], envApiKey := [],
          callResult := CallResult.failure } [] []).1 = false :=
  (spec_C4 { sdkAvailable := false, apiKeyArg := [], envApiKey := [],
             callResult := CallResult.failure } [] [] "marketing, fyi".toList
    (Or.inl (by decide))).2 (by decide)

/-- Claim C6: `llm_summary` reports mode `ON` exactly when the remote call
succeeded with a (string) content, `OFF` exactly when the adapter is not
configured/available, `FALLBACK` exactly when the remote was attempted and
failed (exception, or a `None` content that raises inside the `try`); in
every non-`ON` case, and in the `ON` case whose post-processed result is
empty, the returned sentence is the heuristic summary of the body. -/
theorem spec_C6 (cfg : AIConfig) (text subject : List Char) (max_len : Nat) :
    ((llm_summary cfg text subject max_len).2 = "OFF".toList ↔ ai_available cfg = false) ∧
    ((llm_summary cfg text subject max_len).2 = "FALLBACK".toList ↔
      (ai_available cfg = true ∧
        (cfg.callResult = CallResult.failure ∨ cfg.callResult = CallResult.success none))) ∧
    ((llm_summary cfg text subject max_len).2 = "ON".toList ↔
      (ai_available cfg = true ∧ ∃ c, cfg.callResult = CallResult.success (some c))) ∧
    ((llm_summary cfg text subject max_len).2 ≠ "ON".toList →
      (llm_summary cfg text subject max_len).1 = heuristic_summary text max_len) ∧
    (∀ c, cfg.callResult = CallResult.success (some c) →
      pyStrip ((stripNonWordEnds (pyStrip c)).take max_len) = [] →
      (llm_summary cfg text subject max_len).1 = heuristic_summary text max_len) := by
  have hOFFFB : ("OFF".toList : List Char) ≠ "FALLBACK".toList := by decide
  have hOFFON : ("OFF".toList : List Char) ≠ "ON".toList := by decide
  have hFBOFF : ("FALLBACK".toList : List Char) ≠ "OFF".toList := by decide
  have hFBON : ("FALLBACK".toList : List Char) ≠ "ON".toList := by decide
  have hONOFF : ("ON".toList : List Char) ≠ "OFF".toList := by decide
  have hONFB : ("ON".toList : List Char) ≠ "FALLBACK".toList := by decide
  by_cases hs : cfg.sdkAvailable
  · by_cases hk : (effective_api_key cfg).isEmpty
    · have hav : ai_available cfg = false := by
        unfold ai_available
        simp [hs, hk]
      have heq : llm_summary cfg text subject max_len
          = (heuristic_summary text max_len, "OFF".toList) := by
        unfold llm_summary
        rw [if_neg (by simp [hs]), if_pos hk]
      rw [heq]
      exact ⟨by simp [hav], by simp [hav, hOFFFB], by simp [hav, hOFFON],
        fun _ => rfl, fun c hc hres => rfl⟩
    · have hk' : (effective_api_key cfg).isEmpty = false := by simpa using hk
      have hav : ai_available cfg = true := by
        unfold ai_available
        simp [hs, hk']
      cases hcall : cfg.callResult with
      | failure =>
        have heq : llm_summary cfg text subject max_len
            = (heuristic_summary text max_len, "FALLBACK".toList) := by
          unfold llm_summary
          rw [if_neg (by simp [hs]), if_neg hk, hcall]
        rw [heq]
        exact ⟨by simp [hav, hFBOFF], by simp [hav, hcall], by simp [hav, hcall, hFBON],
          fun _ => rfl, fun c hc hres => rfl⟩
      | success content =>
        cases content with
        | none =>
          have heq : llm_summary cfg text subject max_len
              = (heuristic_summary text max_len, "FALLBACK".toList) := by
            unfold llm_summary
            rw [if_neg (by simp [hs]), if_neg hk, hcall]
          rw [heq]
          exact ⟨by simp [hav, hFBOFF], by simp [hav, hcall], by simp [hav, hcall, hFBON],
            fun _ => rfl, fun c hc hres => rfl⟩
        | some c0 =>
          by_cases hres0 : (pyStrip ((stripNonWordEnds (pyStrip c0)).take max_len)).isEmpty
          · have heq : llm_summary cfg text subject max_len
                = (heuristic_summary text max_len, "ON".toList) := by
              unfold llm_summary
              rw [if_neg (by simp [hs]), if_neg hk, hcall]
              dsimp only
              rw [if_pos hres0]
            rw [heq]
            exact ⟨by simp [hav, hONOFF], by simp [hav, hcall, hONFB],
              ⟨fun _ => ⟨hav, c0, rfl⟩, fun _ => rfl⟩,
              fun _ => rfl, fun c hc hres => rfl⟩
          · have heq : llm_summary cfg text subject max_len
                = (pyStrip ((stripNonWordEnds (pyStrip c0)).take max_len), "ON".toList) := by
              unfold llm_summary
              rw [if_neg (by simp [hs]), if_neg hk, hcall]
              dsimp only
              rw [if_neg hres0]
            rw [heq]
            refine ⟨by simp [hav, hONOFF], by simp [hav, hcall, hONFB],
              ⟨fun _ => ⟨hav, c0, rfl⟩, fun _ => rfl⟩, ?_, ?_⟩
            · intro h
              exact absurd rfl h
            · intro c hc hres
              have hcc : c0 = c := by
                have h1 := (CallResult.success.injEq _ _).mp hc
                exact Option.some.inj h1
              subst hcc
              rw [hres] at hres0
              exact absurd rfl hres0
  · have hav : ai_available cfg = false := by
      unfold ai_available
      simp [hs]
    have heq : llm_summary cfg text subject max_len
        = (heuristic_summary text max_len, "OFF".toList) := by
      unfold llm_summary
      rw [if_pos (by simp [hs])]
    rw [heq]
    exact ⟨by simp [hav], by simp [hav, hOFFFB], by simp [hav, hOFFON],
      fun _ => rfl, fun c hc hres => rfl⟩

/-- Witness for C6: adapter unavailable reports `OFF` and falls back to
the heuristic summary. -/
theorem spec_C6_witness :
    (llm_summary { sdkAvailable := false, apiKeyArg := [], envApiKey := [],
                   callResult := CallResult.failure } "body text".toList "s".toList 140).1
      = heuristic_summary "body text".toList 140 :=
  (spec_C6 { sdkAvailable := false, apiKeyArg := [], envApiKey := [],
             callResult := CallResult.failure } "body text".toList "s".toList 140).2.2.2.1
    (by decide)

/-! ### Store operation traces

Every mutation the program performs on the SQLite store goes through the
persistence functions above; an ingestion cycle (and any interleaving of
cycles with UI actions) is a sequence of these operations. -/

/-- One store mutation. -/
inductive Op where
  | addTask (task_text subject snippet : List Char) (email_uid : Option (List Char)) (now : Int)
  | deleteTask (task_id : Nat)
  | markCompleted (task_id : Nat) (done : Bool) (now : Int)
  | archiveAll (now : Int)
  | listActive (retention_hours now : Int)
  | markUid (uid : List Char)
  | saveMeta (key value : List Char)

/-- Apply one store mutation. -/
def applyOp (db : DB) : Op → DB
  | .addTask t s sn uid now => (add_task t s sn uid now db).2
  | .deleteTask i => delete_task i db
  | .markCompleted i d now => mark_task_completed i d now db
  | .archiveAll now => (archive_all_completed_now now db).2
  | .listActive r now => (list_active_tasks r now db).2.2.2
  | .markUid u => mark_uid_processed u db
  | .saveMeta k v => save_metadata k v db

/-- Apply a sequence of store mutations. -/
def applyOps (db : DB) : List Op → DB
  | [] => db
  | op :: rest => applyOps (applyOp db op) rest

/-- Number of task rows whose `email_uid` is `m`. -/
def uidRecordCount (m : List Char) (db : DB) : Nat :=
  db.tasks.countP (fun t => decide (t.email_uid = some m))

theorem mem_mark_uid_processed_self (u : List Char) (db : DB) :
    u ∈ (mark_uid_processed u db).processed_uids := by
  unfold mark_uid_processed
  by_cases h : u ∈ db.processed_uids
  · rw [if_pos h]
    exact h
  · rw [if_neg h]
    simp

theorem mark_uid_processed_mono {m : List Char} {db : DB} (u : List Char)
    (h : m ∈ db.processed_uids) : m ∈ (mark_uid_processed u db).processed_uids := by
  unfold mark_uid_processed
  by_cases hu : u ∈ db.processed_uids
  · rw [if_pos hu]
    exact h
  · rw [if_neg hu]
    simp [h]

theorem mark_uid_processed_tasks (u : List Char) (db : DB) :
    (mark_uid_processed u db).tasks = db.tasks := by
  unfold mark_uid_processed
  by_cases hu : u ∈ db.processed_uids
  · rw [if_pos hu]
  · rw [if_neg hu]

theorem add_task_processed_mono {m : List Char} {db : DB}
    (t s sn : List Char) (uid : Option (List Char)) (now : Int)
    (h : m ∈ db.processed_uids) :
    m ∈ (add_task t s sn uid now db).2.processed_uids := by
  unfold add_task
  by_cases hc : pyTruthyStr uid && is_uid_processed (uid.getD []) db
  · rw [if_pos hc]
    exact h
  · rw [if_neg hc]
    dsimp only
    by_cases ht : pyTruthyStr uid
    · rw [if_pos ht]
      exact mark_uid_processed_mono _ h
    · rw [if_neg ht]
      exact h

/-- `ProcessedIdSet` membership is permanent: no store operation removes a
processed uid. -/
theorem applyOp_processed_mono {m : List Char} {db : DB} (op : Op)
    (h : m ∈ db.processed_uids) : m ∈ (applyOp db op).processed_uids := by
  cases op with
  | addTask t s sn uid now => exact add_task_processed_mono t s sn uid now h
  | deleteTask i => exact h
  | markCompleted i d now => exact h
  | archiveAll now => exact h
  | listActive r now =>
    show m ∈ (list_active_tasks r now db).2.2.2.processed_uids
    unfold list_active_tasks
    dsimp only
    split <;> exact h
  | markUid u => exact mark_uid_processed_mono _ h
  | saveMeta k v => exact h

/-- Python truthiness of a non-empty `email_uid`. -/
theorem pyTruthyStr_some {m : List Char} (hm : m ≠ []) : pyTruthyStr (some m) = true := by
  show (!m.isEmpty) = true
  rw [isEmpty_eq_false_of_ne_nil hm]
  rfl

/-- `add_task` skips when the truthy uid is already processed. -/
theorem add_task_skip {m : List Char} (hm : m ≠ []) (t s sn : List Char) (now : Int)
    (db : DB) (hp : is_uid_processed m db = true) :
    add_task t s sn (some m) now db = (false, db) := by
  unfold add_task
  rw [if_pos ?hc]
  case hc =>
    rw [pyTruthyStr_some hm, Bool.true_and]
    show is_uid_processed m db = true
    exact hp

/-- Inserting a record with a uid different from `m` leaves the count of
`m`-records unchanged. -/
theorem add_task_count_other {m : List Char} (t s sn : List Char)
    (uid : Option (List Char)) (now : Int) (db : DB) (huid : uid ≠ some m) :
    uidRecordCount m (add_task t s sn uid now db).2 = uidRecordCount m db := by
  unfold add_task
  by_cases hc : pyTruthyStr uid && is_uid_processed (uid.getD []) db
  · rw [if_pos hc]
  · rw [if_neg hc]
    dsimp only
    by_cases ht : pyTruthyStr uid
    · rw [if_pos ht]
      unfold uidRecordCount
      rw [mark_uid_processed_tasks]
      dsimp only
      rw [List.countP_append]
      simp [List.countP_cons, huid]
    · rw [if_neg ht]
      unfold uidRecordCount
      dsimp only
      rw [List.countP_append]
      simp [List.countP_cons, huid]

/-- Inserting a record for an unprocessed uid `m` adds exactly one
`m`-record. -/
theorem add_task_count_self {m : List Char} (hm : m ≠ []) (t s sn : List Char)
    (now : Int) (db : DB) (hp : is_uid_processed m db = false) :
    uidRecordCount m (add_task t s sn (some m) now db).2 = uidRecordCount m db + 1 := by
  have hcond : (pyTruthyStr (some m) && is_uid_processed ((some m).getD []) db) = false := by
    rw [pyTruthyStr_some hm, Bool.true_and]
    show is_uid_processed m db = false
    exact hp
  unfold add_task
  rw [if_neg (by rw [hcond]; simp)]
  dsimp only
  rw [if_pos (pyTruthyStr_some hm)]
  unfold uidRecordCount
  rw [mark_uid_processed_tasks]
  dsimp only
  rw [List.countP_append]
  simp [List.countP_cons]

/-- Inserting for an unprocessed uid `m` returns `True` and marks `m`
processed. -/
theorem add_task_marks_self {m : List Char} (hm : m ≠ []) (t s sn : List Char)
    (now : Int) (db : DB) (hp : is_uid_processed m db = false) :
    (add_task t s sn (some m) now db).1 = true ∧
    m ∈ (add_task t s sn (some m) now db).2.processed_uids := by
  have hcond : (pyTruthyStr (some m) && is_uid_processed ((some m).getD []) db) = false := by
    rw [pyTruthyStr_some hm, Bool.true_and]
    show is_uid_processed m db = false
    exact hp
  unfold add_task
  rw [if_neg (by rw [hcond]; simp)]
  dsimp only
  rw [if_pos (pyTruthyStr_some hm)]
  exact ⟨rfl, mem_mark_uid_processed_self _ _⟩

theorem countP_map_email_uid_invariant {m : List Char} (f : Task → Task)
    (hf : ∀ t, (f t).email_uid = t.email_uid) (l : List Task) :
    (l.map f).countP (fun t => decide (t.email_uid = some m))
      = l.countP (fun t => decide (t.email_uid = some m)) := by
  induction l with
  | nil => rfl
  | cons a tl ih =>
    rw [List.map_cons, List.countP_cons, List.countP_cons, ih, hf a]

/-- The at-most-once invariant for a fixed uid `m`: at most one task row
carries `m`, and if one does then `m` is in `ProcessedIdSet`. -/
def invC1 (m : List Char) (db : DB) : Prop :=
  uidRecordCount m db ≤ 1 ∧ (1 ≤ uidRecordCount m db → m ∈ db.processed_uids)

theorem invC1_applyOp {m : List Char} (hm : m ≠ []) {db : DB} (op : Op)
    (h : invC1 m db) : invC1 m (applyOp db op) := by
  obtain ⟨h1, h2⟩ := h
  cases op with
  | addTask t s sn uid now =>
    show invC1 m (add_task t s sn uid now db).2
    by_cases huid : uid = some m
    · subst huid
      cases hp : is_uid_processed m db with
      | true =>
        rw [add_task_skip hm t s sn now db hp]
        exact ⟨h1, h2⟩
      | false =>
        have hmem : m ∉ db.processed_uids := by
          unfold is_uid_processed at hp
          simpa using hp
        have hcount0 : uidRecordCount m db = 0 := by
          by_contra hne
          exact hmem (h2 (Nat.one_le_iff_ne_zero.mpr hne))
        constructor
        · rw [add_task_count_self hm t s sn now db hp, hcount0]
        · intro _
          exact (add_task_marks_self hm t s sn now db hp).2
    · constructor
      · rw [add_task_count_other t s sn uid now db huid]
        exact h1
      · intro hge
        rw [add_task_count_other t s sn uid now db huid] at hge
        exact add_task_processed_mono t s sn uid now (h2 hge)
  | deleteTask i =>
    show invC1 m (delete_task i db)
    constructor
    · show uidRecordCount m (delete_task i db) ≤ 1
      unfold uidRecordCount delete_task
      dsimp only
      calc (db.tasks.filter (fun t => t.id ≠ i)).countP (fun t => decide (t.email_uid = some m))
          ≤ db.tasks.countP (fun t => decide (t.email_uid = some m)) := by
            rw [List.countP_filter]
            exact List.countP_mono_left (fun a _ h => by
              rw [Bool.and_eq_true] at h
              exact h.1)
        _ ≤ 1 := h1
    · intro hge
      apply h2
      unfold uidRecordCount delete_task at hge
      dsimp only at hge
      show 1 ≤ db.tasks.countP (fun t => decide (t.email_uid = some m))
      calc 1 ≤ (db.tasks.filter (fun t => t.id ≠ i)).countP
            (fun t => decide (t.email_uid = some m)) := hge
        _ ≤ db.tasks.countP (fun t => decide (t.email_uid = some m)) := by
            rw [List.countP_filter]
            exact List.countP_mono_left (fun a _ h => by
              rw [Bool.and_eq_true] at h
              exact h.1)
  | markCompleted i d now =>
    show invC1 m (mark_task_completed i d now db)
    have hcnt : uidRecordCount m (mark_task_completed i d now db) = uidRecordCount m db := by
      unfold uidRecordCount mark_task_completed
      dsimp only
      apply countP_map_email_uid_invariant
      intro t
      by_cases hi : t.id = i
      · rw [if_pos hi]
        cases d <;> rfl
      · rw [if_neg hi]
    rw [invC1, hcnt]
    exact ⟨h1, h2⟩
  | archiveAll now =>
    show invC1 m (archive_all_completed_now now db).2
    have hcnt : uidRecordCount m (archive_all_completed_now now db).2 = uidRecordCount m db := by
      unfold uidRecordCount archive_all_completed_now
      dsimp only
      apply countP_map_email_uid_invariant
      intro t
      by_cases hi : t.archived_at = none ∧ t.is_completed
      · rw [if_pos hi]
      · rw [if_neg hi]
    rw [invC1, hcnt]
    exact ⟨h1, h2⟩
  | listActive r now =>
    show invC1 m (list_active_tasks r now db).2.2.2
    have hcnt : uidRecordCount m (list_active_tasks r now db).2.2.2 = uidRecordCount m db := by
      unfold uidRecordCount list_active_tasks
      dsimp only
      split
      · rfl
      · dsimp only
        apply countP_map_email_uid_invariant
        intro t
        by_cases hi : t.id ∈ (((activeRowsSorted db).filter
            (staleCompleted (now - r * 3600))).map (fun t => t.id))
        · rw [if_pos hi]
        · rw [if_neg hi]
    have hp : (list_active_tasks r now db).2.2.2.processed_uids = db.processed_uids := by
      unfold list_active_tasks
      dsimp only
      split <;> rfl
    rw [invC1, hcnt, hp]
    exact ⟨h1, h2⟩
  | markUid u =>
    show invC1 m (mark_uid_processed u db)
    have hcnt : uidRecordCount m (mark_uid_processed u db) = uidRecordCount m db := by
      unfold uidRecordCount
      rw [mark_uid_processed_tasks]
    rw [invC1, hcnt]
    exact ⟨h1, fun hge => mark_uid_processed_mono _ (h2 hge)⟩
  | saveMeta k v =>
    exact ⟨h1, h2⟩

theorem invC1_applyOps {m : List Char} (hm : m ≠ []) {db : DB} (ops : List Op)
    (h : invC1 m db) : invC1 m (applyOps db ops) := by
  induction ops generalizing db with
  | nil => exact h
  | cons op rest ih => exact ih (invC1_applyOp hm op h)

/-- Claim C1: for a non-empty external message identifier `m` (IMAP uids
are non-empty decimal strings), `add_task` with `email_uid = m` inserts
only when `m` is not yet in `ProcessedIdSet`, marks `m` processed when it
inserts, and consequently over any sequence of store operations starting
from the fresh store — hence over any number of (possibly overlapping)
ingestion cycles — at most one task row with `email_uid = m` ever exists. -/
theorem spec_C1 (m : List Char) (hm : m ≠ []) :
    (∀ db t s sn now, is_uid_processed m db = true →
      add_task t s sn (some m) now db = (false, db)) ∧
    (∀ db t s sn now, is_uid_processed m db = false →
      (add_task t s sn (some m) now db).1 = true ∧
      m ∈ (add_task t s sn (some m) now db).2.processed_uids) ∧
    (∀ ops : List Op, uidRecordCount m (applyOps emptyDB ops) ≤ 1) := by
  refine ⟨?_, ?_, ?_⟩
  · intro db t s sn now hp
    exact add_task_skip hm t s sn now db hp
  · intro db t s sn now hp
    exact add_task_marks_self hm t s sn now db hp
  · intro ops
    have h0 : invC1 m emptyDB := by
      constructor
      · show uidRecordCount m emptyDB ≤ 1
        unfold uidRecordCount emptyDB
        simp
      · intro hge
        exfalso
        unfold uidRecordCount emptyDB at hge
        simp at hge
    exact (invC1_applyOps hm ops h0).1

/-- Witness for C1: delivering uid 5 twice creates a single record. -/
theorem spec_C1_witness :
    uidRecordCount "5".toList (applyOps emptyDB
      [Op.addTask "a".toList [] [] (some "5".toList) 0,
       Op.addTask "b".toList [] [] (some "5".toList) 1]) ≤ 1 :=
  (spec_C1 "5".toList (by decide)).2.2 _

/-! ### The ingestion cycle (`GmailPoller.check_mail`)

The IMAP server and OpenAI service are oracles supplied by `PollEnv`:
`uids` is the server's search response (decoded uid strings, which are
decimal numbers, represented by their values), `fetch` the per-uid fetch
outcome (`none` when `typ != "OK"` or the data is empty; header parsing
and multipart body assembly are library behaviour and appear as the
already-extracted fields of `FetchedMsg`), and `classifyCfg`/`summaryCfg`
the per-message adapter state.  Config values mirror `config.ini`. -/

/-- The parsed fields the loop extracts from a fetched message. -/
structure FetchedMsg where
  subject : List Char
  sender_email : List Char
  received_str : List Char
  body : List Char

/-- Inputs of one `check_mail` invocation. -/
structure PollEnv where
  user : List Char
  pw : List Char
  connectOk : Bool
  searchOk : Bool
  uids : List Nat
  fetch : Nat → Option FetchedMsg
  classify_enabled : Bool
  drop_labels_csv : List Char
  ai_enabled : Bool
  classifyCfg : Nat → AIConfig
  summaryCfg : Nat → AIConfig
  mark_as_read : Bool
  now : Int

/-- The loop state of `check_mail`: the store plus `max_seen_uid`,
`last_ai_mode`, `new_count`, and `dropped`. -/
structure LoopState where
  db : DB
  max_seen_uid : Nat
  last_ai_mode : Option (List Char)
  new_count : Nat
  dropped : Nat

/-- One iteration of the `for uid_s in uids` loop of `check_mail`. -/
def processOne (env : PollEnv) (st : LoopState) (uid : Nat) : LoopState :=
  let uid_s := natToStr uid
  if is_uid_processed uid_s st.db then
    { st with max_seen_uid := max st.max_seen_uid uid }
  else
    match env.fetch uid with
    | none => st
    | some msg =>
      if env.classify_enabled &&
          classify_drops env.drop_labels_csv
            (ai_classify_label (env.classifyCfg uid) msg.body msg.subject).1 then
        { st with db := mark_uid_processed uid_s st.db,
                  dropped := st.dropped + 1,
                  max_seen_uid := max st.max_seen_uid uid }
      else
        let snippet := ((splitlines (pyStrip msg.body)).headD []).take 140
        let sm :=
          if env.ai_enabled then llm_summary (env.summaryCfg uid) msg.body msg.subject 140
          else (heuristic_summary msg.body 140, "OFF".toList)
        let line := "From: ".toList ++ msg.sender_email ++ " | Received: ".toList ++
                    msg.received_str ++ " | Summary: ".toList ++ sm.1
        let res := add_task line msg.subject snippet (some uid_s) env.now st.db
        { db := res.2, max_seen_uid := max st.max_seen_uid uid,
          last_ai_mode := some sm.2, new_count := st.new_count, dropped := st.dropped }

/-- The loop of `check_mail` over the uids sorted ascending by value
(`sorted(uids, key=lambda s: int(s))`), starting from the persisted
cursor.  `new_count` starts at 0 and — exactly as in the source — is
never incremented. -/
def runCycleLoop (env : PollEnv) (db : DB) (lastN : Nat) : LoopState :=
  (List.insertionSort (fun a b => a ≤ b) env.uids).foldl (processOne env)
    { db := db, max_seen_uid := lastN, last_ai_mode := none, new_count := 0, dropped := 0 }

/-- The status string `f"AI {last_ai_mode} | +{new_count} / dropped {dropped}"`,
emitted only when `last_ai_mode` is set. -/
def statusOf (st : LoopState) : Option (List Char) :=
  match st.last_ai_mode with
  | some m => some ("AI ".toList ++ m ++ " | +".toList ++ natToStr st.new_count ++
                    " / dropped ".toList ++ natToStr st.dropped)
  | none => none

/-- `check_mail` after the connection and cursor-parse steps succeeded. -/
def check_mail_rest (env : PollEnv) (db : DB) (lastN : Nat) : DB × Option (List Char) :=
  if !env.searchOk then (db, some "IMAP ERR".toList)
  else if env.uids.isEmpty then (db, some "IMAP OK (no new)".toList)
  else
    let st := runCycleLoop env db lastN
    (save_metadata "last_uid".toList (natToStr st.max_seen_uid) st.db, statusOf st)

/-- `GmailPoller.check_mail` from the source.  The result is the updated
store and the status string passed to `status_callback` (`none` when no
callback fires: a raised connection error — caught by `run` — or a cycle
whose loop never set `last_ai_mode`).  A stored non-empty, non-numeric
cursor makes `int(last_uid)` raise (`ValueError`), also caught by the
caller, leaving the store unchanged. -/
def check_mail (env : PollEnv) (db : DB) : DB × Option (List Char) :=
  if env.user.isEmpty || env.pw.isEmpty then (db, some "IMAP OFF".toList)
  else if !env.connectOk then (db, none)
  else
    let last_uid := get_metadata "last_uid".toList "0".toList db
    if last_uid.isEmpty then check_mail_rest env db 0
    else match strToNat? last_uid with
      | none => (db, none)
      | some lastN => check_mail_rest env db lastN

/-- The value of the persisted cursor: `int(get_metadata("last_uid","0") or 0)`,
read as 0 when the stored string is empty or unparseable. -/
def cursorVal (db : DB) : Nat :=
  let l := get_metadata "last_uid".toList "0".toList db
  ((if l.isEmpty then some 0 else strToNat? l).getD 0)

/-- The lower end of the UID range the next cycle searches:
`f"(UID {int(last_uid)+1}:*)"`. -/
def search_uid_start (db : DB) : Nat := cursorVal db + 1

/-! ### Lemmas about the cycle -/

theorem foldl_inv {α β : Type} (f : β → α → β) (P : β → Prop)
    (l : List α) (st : β) (h : P st)
    (step : ∀ s a, a ∈ l → P s → P (f s a)) : P (l.foldl f st) := by
  induction l generalizing st with
  | nil => exact h
  | cons a tl ih =>
    exact ih _ (step st a (by simp) h) (fun s b hb hp => step s b (by simp [hb]) hp)

theorem find?_upsertMeta (key v : List Char) (l : List (List Char × List Char)) :
    (upsertMeta key v l).find? (fun kv => kv.1 = key) = some (key, v) := by
  induction l with
  | nil =>
    simp [upsertMeta, List.find?]
  | cons kv rest ih =>
    unfold upsertMeta
    by_cases hk : kv.1 = key
    · rw [if_pos hk]
      simp [List.find?]
    · rw [if_neg hk]
      rw [List.find?_cons]
      have : (decide (kv.1 = key)) = false := by simp [hk]
      rw [this]
      exact ih

theorem get_save_metadata (key v d : List Char) (db : DB) :
    get_metadata key d (save_metadata key v db) = v := by
  unfold get_metadata save_metadata
  dsimp only
  rw [find?_upsertMeta]

theorem cursorVal_save (db : DB) (n : Nat) :
    cursorVal (save_metadata "last_uid".toList (natToStr n) db) = n := by
  simp only [cursorVal]
  rw [get_save_metadata]
  rw [isEmpty_eq_false_of_ne_nil (natToStr_ne_nil n)]
  simp [strToNat_natToStr]

theorem processOne_max_mono (env : PollEnv) (st : LoopState) (u : Nat) :
    st.max_seen_uid ≤ (processOne env st u).max_seen_uid := by
  unfold processOne
  dsimp only
  by_cases hskip : is_uid_processed (natToStr u) st.db
  · rw [if_pos hskip]
    exact Nat.le_max_left _ _
  · rw [if_neg hskip]
    cases hf : env.fetch u with
    | none => exact Nat.le_refl _
    | some msg =>
      dsimp only
      by_cases hdrop : env.classify_enabled &&
          classify_drops env.drop_labels_csv
            (ai_classify_label (env.classifyCfg u) msg.body msg.subject).1
      · rw [if_pos hdrop]
        exact Nat.le_max_left _ _
      · rw [if_neg hdrop]
        exact Nat.le_max_left _ _

theorem runCycleLoop_max_ge (env : PollEnv) (db : DB) (n : Nat) :
    n ≤ (runCycleLoop env db n).max_seen_uid := by
  unfold runCycleLoop
  exact foldl_inv (processOne env) (fun st => n ≤ st.max_seen_uid) _ _ (Nat.le_refl n)
    (fun s a _ hp => Nat.le_trans hp (processOne_max_mono env s a))

theorem check_mail_rest_cursor_ge (env : PollEnv) (db : DB) (n : Nat)
    (hn : cursorVal db = n) : n ≤ cursorVal (check_mail_rest env db n).1 := by
  unfold check_mail_rest
  by_cases hs : env.searchOk
  · rw [if_neg (by simp [hs])]
    by_cases hu : env.uids.isEmpty
    · rw [if_pos hu]
      exact Nat.le_of_eq hn.symm
    · rw [if_neg hu]
      dsimp only
      rw [cursorVal_save]
      exact runCycleLoop_max_ge env db n
  · rw [if_pos (by simp [hs])]
    exact Nat.le_of_eq hn.symm

theorem check_mail_cursor_mono (env : PollEnv) (db : DB) :
    cursorVal db ≤ cursorVal (check_mail env db).1 := by
  unfold check_mail
  by_cases hcred : env.user.isEmpty || env.pw.isEmpty
  · rw [if_pos hcred]
  · rw [if_neg hcred]
    by_cases hconn : env.connectOk
    · rw [if_neg (by simp [hconn])]
      dsimp only
      by_cases hemp : (get_metadata "last_uid".toList "0".toList db).isEmpty
      · rw [if_pos hemp]
        have hdb : cursorVal db = 0 := by
          simp only [cursorVal]
          rw [if_pos hemp]
          rfl
        rw [hdb]
        exact check_mail_rest_cursor_ge env db 0 hdb
      · rw [if_neg hemp]
        cases hparse : strToNat? (get_metadata "last_uid".toList "0".toList db) with
        | none => exact Nat.le_refl _
        | some n =>
          have hdb : cursorVal db = n := by
            simp only [cursorVal]
            rw [if_neg hemp, hparse]
            rfl
          rw [hdb]
          exact check_mail_rest_cursor_ge env db n hdb
    · rw [if_pos (by simp [hconn])]

theorem check_mail_rest_no_new (env : PollEnv) (db : DB) (n : Nat)
    (hs : env.searchOk = true) (hn : env.uids = []) :
    check_mail_rest env db n = (db, some "IMAP OK (no new)".toList) := by
  unfold check_mail_rest
  rw [if_neg (by simp [hs]), if_pos (by simp [hn])]

/-- Claim C8, amended: a cycle that reaches the search step (credentials
present, connection up, stored cursor readable) and gets no uids back
reports exactly the status string `IMAP OK (no new)` — not the spec's
`OK (no new)` — and returns with the store unchanged: no record created
and no cursor persisted. -/
theorem spec_C8 (env : PollEnv) (db : DB)
    (hu : env.user.isEmpty = false) (hp : env.pw.isEmpty = false)
    (hc : env.connectOk = true) (hs : env.searchOk = true) (hn : env.uids = [])
    (hcur : (get_metadata "last_uid".toList "0".toList db).isEmpty = true ∨
      ∃ n, strToNat? (get_metadata "last_uid".toList "0".toList db) = some n) :
    check_mail env db = (db, some "IMAP OK (no new)".toList) := by
  unfold check_mail
  rw [if_neg (by simp [hu, hp]), if_neg (by simp [hc])]
  dsimp only
  by_cases hemp : (get_metadata "last_uid".toList "0".toList db).isEmpty
  · rw [if_pos hemp]
    exact check_mail_rest_no_new env db 0 hs hn
  · rw [if_neg hemp]
    rcases hcur with h | ⟨n, hparse⟩
    · exact absurd h hemp
    · rw [hparse]
      exact check_mail_rest_no_new env db n hs hn

/-- An adapter configuration with the SDK unavailable (used by the
concrete cycle evaluations; the AI path is disabled there anyway). -/
def cfgNoAI : AIConfig :=
  { sdkAvailable := false, apiKeyArg := [], envApiKey := [], callResult := CallResult.failure }

/-- A concrete cycle environment whose search returns no uids. -/
def envC8 : PollEnv :=
  { user := "u".toList, pw := "p".toList, connectOk := true, searchOk := true,
    uids := [], fetch := fun _ => none, classify_enabled := false,
    drop_labels_csv := "marketing, fyi".toList, ai_enabled := false,
    classifyCfg := fun _ => cfgNoAI, summaryCfg := fun _ => cfgNoAI,
    mark_as_read := false, now := 0 }

/-- Counterexample to C8 as stated: the empty-result cycle reports
`IMAP OK (no new)`, which is not the claimed exact string `OK (no new)`. -/
theorem spec_C8_cex :
    (check_mail envC8 emptyDB).2 = some "IMAP OK (no new)".toList ∧
    "IMAP OK (no new)".toList ≠ "OK (no new)".toList := by
  constructor
  · rfl
  · decide

/-- Witness for the amended C8. -/
theorem spec_C8_witness :
    check_mail envC8 emptyDB = (emptyDB, some "IMAP OK (no new)".toList) :=
  spec_C8 envC8 emptyDB rfl rfl rfl rfl rfl (Or.inr ⟨0, by decide⟩)

/-- A concrete cycle environment delivering the single new uid 3 whose
fetch succeeds, with classification and summarization disabled. -/
def envC7 : PollEnv :=
  { user := "u".toList, pw := "p".toList, connectOk := true, searchOk := true,
    uids := [3],
    fetch := fun n => if n = 3 then
        some { subject := "Sub".toList, sender_email := "a@b.c".toList,
               received_str := "2024-01-01 00:00".toList, body := "Hello".toList }
      else none,
    classify_enabled := false, drop_labels_csv := "marketing, fyi".toList,
    ai_enabled := false, classifyCfg := fun _ => cfgNoAI, summaryCfg := fun _ => cfgNoAI,
    mark_as_read := false, now := 0 }

/-- Claim C7 fails on the code: this cycle creates exactly one record,
yet the reported status is `AI OFF | +0 / dropped 0` — `new_count` is
initialized to 0 at line 358 and never incremented, so the reported
`+{n}` is always 0 regardless of how many records were created. -/
theorem spec_C7_eval :
    (check_mail envC7 emptyDB).2 = some "AI OFF | +0 / dropped 0".toList ∧
    (check_mail envC7 emptyDB).1.tasks.length = emptyDB.tasks.length + 1 := by
  constructor
  · rfl
  · rfl

/-- Claim C2: the persisted cursor (metadata key `last_uid`) never
decreases, in a single cycle and over any sequence of cycles: each cycle
starts its running maximum from the previously persisted cursor and only
raises it with `max` before persisting. -/
theorem spec_C2 :
    (∀ (env : PollEnv) (db : DB), cursorVal db ≤ cursorVal (check_mail env db).1) ∧
    (∀ (envs : List PollEnv) (db : DB),
      cursorVal db ≤ cursorVal (envs.foldl (fun d e => (check_mail e d).1) db)) := by
  refine ⟨check_mail_cursor_mono, ?_⟩
  intro envs
  induction envs with
  | nil => exact fun db => Nat.le_refl _
  | cons e tl ih =>
    intro db
    exact Nat.le_trans (check_mail_cursor_mono e db) (ih (check_mail e db).1)

/-! ### Claim C3: what the cursor advance does and does not guarantee -/

theorem mem_mark_uid_of_ne {m u : List Char} {db : DB} (hne : m ≠ u)
    (hm : m ∉ db.processed_uids) : m ∉ (mark_uid_processed u db).processed_uids := by
  unfold mark_uid_processed
  by_cases hu : u ∈ db.processed_uids
  · rw [if_pos hu]
    exact hm
  · rw [if_neg hu]
    dsimp only
    intro hmem
    rcases List.mem_append.1 hmem with h | h
    · exact hm h
    · exact hne (by simpa using h)

theorem add_task_processed_not_new {m : List Char} {uid : Option (List Char)} {db : DB}
    (t s sn : List Char) (now : Int)
    (hm : m ∉ db.processed_uids) (huid : uid ≠ some m) :
    m ∉ (add_task t s sn uid now db).2.processed_uids := by
  unfold add_task
  by_cases hc : pyTruthyStr uid && is_uid_processed (uid.getD []) db
  · rw [if_pos hc]
    exact hm
  · rw [if_neg hc]
    dsimp only
    by_cases ht : pyTruthyStr uid
    · rw [if_pos ht]
      cases uid with
      | none => simp [pyTruthyStr] at ht
      | some u =>
        have hneu : m ≠ u := fun he => huid (by rw [he])
        exact mem_mark_uid_of_ne hneu hm
    · rw [if_neg ht]
      exact hm

/-- A uid whose fetch failed this cycle is not marked processed and gets
no record, provided it was unprocessed before the cycle. -/
theorem check_mail_fetch_failed (env : PollEnv) (db : DB) (i : Nat)
    (hm : natToStr i ∉ db.processed_uids) (hf : env.fetch i = none) :
    natToStr i ∉ (check_mail env db).1.processed_uids ∧
    uidRecordCount (natToStr i) (check_mail env db).1
      = uidRecordCount (natToStr i) db := by
  have hrest : ∀ n, natToStr i ∉ (check_mail_rest env db n).1.processed_uids ∧
      uidRecordCount (natToStr i) (check_mail_rest env db n).1
        = uidRecordCount (natToStr i) db := by
    intro n
    unfold check_mail_rest
    by_cases hs : env.searchOk
    · rw [if_neg (by simp [hs])]
      by_cases hu : env.uids.isEmpty
      · rw [if_pos hu]
        exact ⟨hm, rfl⟩
      · rw [if_neg hu]
        dsimp only
        have hloop : natToStr i ∉ (runCycleLoop env db n).db.processed_uids ∧
            uidRecordCount (natToStr i) (runCycleLoop env db n).db
              = uidRecordCount (natToStr i) db := by
          unfold runCycleLoop
          refine foldl_inv (processOne env)
            (fun st => natToStr i ∉ st.db.processed_uids ∧
              uidRecordCount (natToStr i) st.db = uidRecordCount (natToStr i) db)
            _ _ ⟨hm, rfl⟩ ?_
          intro st u _ hP
          unfold processOne
          dsimp only
          by_cases hskip : is_uid_processed (natToStr u) st.db
          · rw [if_pos hskip]
            exact hP
          · rw [if_neg hskip]
            cases hfu : env.fetch u with
            | none => exact hP
            | some msg =>
              have hui : u ≠ i := by
                intro he
                rw [he, hf] at hfu
                exact absurd hfu (by simp)
              have hne : natToStr i ≠ natToStr u :=
                fun he => hui (natToStr_injective he.symm)
              dsimp only
              by_cases hdrop : env.classify_enabled &&
                  classify_drops env.drop_labels_csv
                    (ai_classify_label (env.classifyCfg u) msg.body msg.subject).1
              · rw [if_pos hdrop]
                refine ⟨mem_mark_uid_of_ne hne hP.1, ?_⟩
                show uidRecordCount (natToStr i) (mark_uid_processed (natToStr u) st.db) = _
                unfold uidRecordCount
                rw [mark_uid_processed_tasks]
                exact hP.2
              · rw [if_neg hdrop]
                dsimp only
                have huid : (some (natToStr u) : Option (List Char)) ≠ some (natToStr i) :=
                  fun he => hne (Option.some.inj he).symm
                constructor
                · exact add_task_processed_not_new _ _ _ env.now hP.1
                    (fun he => hne (Option.some.inj he).symm)
                · rw [add_task_count_other _ _ _ _ _ _ huid]
                  exact hP.2
        exact ⟨hloop.1, by
          show uidRecordCount _ (save_metadata _ _ _) = _
          unfold uidRecordCount save_metadata
          exact hloop.2⟩
    · rw [if_pos (by simp [hs])]
      exact ⟨hm, rfl⟩
  unfold check_mail
  by_cases hcred : env.user.isEmpty || env.pw.isEmpty
  · rw [if_pos hcred]
    exact ⟨hm, rfl⟩
  · rw [if_neg hcred]
    by_cases hconn : env.connectOk
    · rw [if_neg (by simp [hconn])]
      dsimp only
      by_cases hemp : (get_metadata "last_uid".toList "0".toList db).isEmpty
      · rw [if_pos hemp]
        exact hrest 0
      · rw [if_neg hemp]
        cases hparse : strToNat? (get_metadata "last_uid".toList "0".toList db) with
        | none => exact ⟨hm, rfl⟩
        | some n => exact hrest n
    · rw [if_pos (by simp [hconn])]
      exact ⟨hm, rfl⟩

/-- The persisted cursor after a cycle is either the previous cursor or
the value of a served uid that is marked processed by the end of the
cycle. -/
theorem check_mail_cursor_provenance (env : PollEnv) (db : DB) :
    cursorVal (check_mail env db).1 = cursorVal db ∨
    (cursorVal (check_mail env db).1 ∈ env.uids ∧
     natToStr (cursorVal (check_mail env db).1) ∈ (check_mail env db).1.processed_uids) := by
  have hrest : ∀ n, cursorVal db = n →
      cursorVal (check_mail_rest env db n).1 = cursorVal db ∨
      (cursorVal (check_mail_rest env db n).1 ∈ env.uids ∧
       natToStr (cursorVal (check_mail_rest env db n).1)
         ∈ (check_mail_rest env db n).1.processed_uids) := by
    intro n hn
    unfold check_mail_rest
    by_cases hs : env.searchOk
    · rw [if_neg (by simp [hs])]
      by_cases hu : env.uids.isEmpty
      · rw [if_pos hu]
        exact Or.inl rfl
      · rw [if_neg hu]
        dsimp only
        have hloop : (runCycleLoop env db n).max_seen_uid = n ∨
            ((runCycleLoop env db n).max_seen_uid ∈ env.uids ∧
             natToStr (runCycleLoop env db n).max_seen_uid
               ∈ (runCycleLoop env db n).db.processed_uids) := by
          unfold runCycleLoop
          refine foldl_inv (processOne env)
            (fun st => st.max_seen_uid = n ∨
              (st.max_seen_uid ∈ env.uids ∧
               natToStr st.max_seen_uid ∈ st.db.processed_uids))
            _ _ (Or.inl rfl) ?_
          intro st u hu2 hP
          have humem : u ∈ env.uids := (List.mem_insertionSort _).1 hu2
          unfold processOne
          dsimp only
          by_cases hskip : is_uid_processed (natToStr u) st.db
          · rw [if_pos hskip]
            rcases Nat.le_total st.max_seen_uid u with hle | hle
            · rw [Nat.max_eq_right hle]
              exact Or.inr ⟨humem, by unfold is_uid_processed at hskip; simpa using hskip⟩
            · rw [Nat.max_eq_left hle]
              exact hP
          · rw [if_neg hskip]
            cases hfu : env.fetch u with
            | none => exact hP
            | some msg =>
              dsimp only
              by_cases hdrop : env.classify_enabled &&
                  classify_drops env.drop_labels_csv
                    (ai_classify_label (env.classifyCfg u) msg.body msg.subject).1
              · rw [if_pos hdrop]
                rcases Nat.le_total st.max_seen_uid u with hle | hle
                · rw [Nat.max_eq_right hle]
                  exact Or.inr ⟨humem, mem_mark_uid_processed_self _ _⟩
                · rw [Nat.max_eq_left hle]
                  rcases hP with h | ⟨h1, h2⟩
                  · exact Or.inl h
                  · exact Or.inr ⟨h1, mark_uid_processed_mono _ h2⟩
              · rw [if_neg hdrop]
                dsimp only
                rcases Nat.le_total st.max_seen_uid u with hle | hle
                · rw [Nat.max_eq_right hle]
                  refine Or.inr ⟨humem, ?_⟩
                  exact (add_task_marks_self (natToStr_ne_nil u) _ _ _ env.now st.db
                    (by simpa using hskip)).2
                · rw [Nat.max_eq_left hle]
                  rcases hP with h | ⟨h1, h2⟩
                  · exact Or.inl h
                  · exact Or.inr ⟨h1, add_task_processed_mono _ _ _ _ _ h2⟩
        rw [cursorVal_save]
        rcases hloop with h | ⟨h1, h2⟩
        · exact Or.inl (by rw [h, hn])
        · exact Or.inr ⟨h1, h2⟩
    · rw [if_pos (by simp [hs])]
      exact Or.inl rfl
  unfold check_mail
  by_cases hcred : env.user.isEmpty || env.pw.isEmpty
  · rw [if_pos hcred]
    exact Or.inl rfl
  · rw [if_neg hcred]
    by_cases hconn : env.connectOk
    · rw [if_neg (by simp [hconn])]
      dsimp only
      by_cases hemp : (get_metadata "last_uid".toList "0".toList db).isEmpty
      · rw [if_pos hemp]
        exact hrest 0 (by simp only [cursorVal]; rw [if_pos hemp]; rfl)
      · rw [if_neg hemp]
        cases hparse : strToNat? (get_metadata "last_uid".toList "0".toList db) with
        | none => exact Or.inl rfl
        | some n => exact hrest n (by simp only [cursorVal]; rw [if_neg hemp, hparse]; rfl)
    · rw [if_pos (by simp [hconn])]
      exact Or.inl rfl

/-- Claim C3, amended: a uid whose fetch failed is not added to
`ProcessedIdSet` and gets no record; the persisted cursor only ever takes
the previous cursor value or the value of a uid whose outcome was
recorded; and the failed uid is inside the UID range the next cycle
searches exactly when the persisted cursor stayed below it — but the
cursor may well advance past a fetch-failed uid when a later uid in the
same cycle succeeds, in which case that uid is never retried (it is not
true that every id with no durable outcome stays above the cursor). -/
theorem spec_C3 (env : PollEnv) (db : DB) (i : Nat)
    (hm : natToStr i ∉ db.processed_uids) (hf : env.fetch i = none) :
    (natToStr i ∉ (check_mail env db).1.processed_uids ∧
     uidRecordCount (natToStr i) (check_mail env db).1
       = uidRecordCount (natToStr i) db) ∧
    (cursorVal (check_mail env db).1 = cursorVal db ∨
      (cursorVal (check_mail env db).1 ∈ env.uids ∧
       natToStr (cursorVal (check_mail env db).1) ∈ (check_mail env db).1.processed_uids)) ∧
    (cursorVal (check_mail env db).1 < i ↔ search_uid_start (check_mail env db).1 ≤ i) := by
  refine ⟨check_mail_fetch_failed env db i hm hf, check_mail_cursor_provenance env db, ?_⟩
  unfold search_uid_start
  omega

/-- A concrete cycle: uids 5 and 7 are served, the fetch of 5 fails and 7
succeeds, classification and summarization are disabled. -/
def envC3 : PollEnv :=
  { user := "u".toList, pw := "p".toList, connectOk := true, searchOk := true,
    uids := [5, 7],
    fetch := fun n => if n = 7 then
        some { subject := "Sub".toList, sender_email := "a@b.c".toList,
               received_str := "2024-01-01 00:00".toList, body := "Hello".toList }
      else none,
    classify_enabled := false, drop_labels_csv := "marketing, fyi".toList,
    ai_enabled := false, classifyCfg := fun _ => cfgNoAI, summaryCfg := fun _ => cfgNoAI,
    mark_as_read := false, now := 0 }

/-- Counterexample to C3 as stated: after this cycle the persisted cursor
is 7, yet uid 5 is not in `ProcessedIdSet` and has no record — the claim
"for every id i not in ProcessedIdSet and with no record, the persisted
cursor is < i" fails, and 5 is not retried next cycle. -/
theorem spec_C3_cex :
    cursorVal (check_mail envC3 emptyDB).1 = 7 ∧
    natToStr 5 ∉ (check_mail envC3 emptyDB).1.processed_uids ∧
    uidRecordCount (natToStr 5) (check_mail envC3 emptyDB).1 = 0 ∧
    ¬(cursorVal (check_mail envC3 emptyDB).1 < 5) ∧
    ¬(search_uid_start (check_mail envC3 emptyDB).1 ≤ 5) := by
  refine ⟨?_, ?_, ?_, ?_, ?_⟩ <;> decide

/-- Witness for the amended C3. -/
theorem spec_C3_witness :
    natToStr 5 ∉ (check_mail envC3 emptyDB).1.processed_uids :=
  (spec_C3 envC3 emptyDB 5 (by decide) rfl).1.1

/-! ### Claim C9: deletion does not reopen ingestion -/

/-- A uid already in `ProcessedIdSet` stays there through a cycle, and no
new record is ever created for it by the cycle. -/
theorem check_mail_processed_stable (env : PollEnv) (db : DB) (m : List Char)
    (hp : m ∈ db.processed_uids) :
    m ∈ (check_mail env db).1.processed_uids ∧
    uidRecordCount m (check_mail env db).1 = uidRecordCount m db := by
  have hrest : ∀ n, m ∈ (check_mail_rest env db n).1.processed_uids ∧
      uidRecordCount m (check_mail_rest env db n).1 = uidRecordCount m db := by
    intro n
    unfold check_mail_rest
    by_cases hs : env.searchOk
    · rw [if_neg (by simp [hs])]
      by_cases hu : env.uids.isEmpty
      · rw [if_pos hu]
        exact ⟨hp, rfl⟩
      · rw [if_neg hu]
        dsimp only
        have hloop : m ∈ (runCycleLoop env db n).db.processed_uids ∧
            uidRecordCount m (runCycleLoop env db n).db = uidRecordCount m db := by
          unfold runCycleLoop
          refine foldl_inv (processOne env)
            (fun st => m ∈ st.db.processed_uids ∧
              uidRecordCount m st.db = uidRecordCount m db)
            _ _ ⟨hp, rfl⟩ ?_
          intro st u _ hP
          unfold processOne
          dsimp only
          by_cases hskip : is_uid_processed (natToStr u) st.db
          · rw [if_pos hskip]
            exact hP
          · rw [if_neg hskip]
            cases hfu : env.fetch u with
            | none => exact hP
            | some msg =>
              have hne : natToStr u ≠ m := by
                intro he
                apply hskip
                unfold is_uid_processed
                rw [he]
                exact decide_eq_true hP.1
              dsimp only
              by_cases hdrop : env.classify_enabled &&
                  classify_drops env.drop_labels_csv
                    (ai_classify_label (env.classifyCfg u) msg.body msg.subject).1
              · rw [if_pos hdrop]
                refine ⟨mark_uid_processed_mono _ hP.1, ?_⟩
                show uidRecordCount m (mark_uid_processed (natToStr u) st.db) = _
                unfold uidRecordCount
                rw [mark_uid_processed_tasks]
                exact hP.2
              · rw [if_neg hdrop]
                dsimp only
                have huid : (some (natToStr u) : Option (List Char)) ≠ some m :=
                  fun he => hne (Option.some.inj he)
                constructor
                · exact add_task_processed_mono _ _ _ _ _ hP.1
                · rw [add_task_count_other _ _ _ _ _ _ huid]
                  exact hP.2
        exact ⟨hloop.1, by
          show uidRecordCount _ (save_metadata _ _ _) = _
          unfold uidRecordCount save_metadata
          exact hloop.2⟩
    · rw [if_pos (by simp [hs])]
      exact ⟨hp, rfl⟩
  unfold check_mail
  by_cases hcred : env.user.isEmpty || env.pw.isEmpty
  · rw [if_pos hcred]
    exact ⟨hp, rfl⟩
  · rw [if_neg hcred]
    by_cases hconn : env.connectOk
    · rw [if_neg (by simp [hconn])]
      dsimp only
      by_cases hemp : (get_metadata "last_uid".toList "0".toList db).isEmpty
      · rw [if_pos hemp]
        exact hrest 0
      · rw [if_neg hemp]
        cases hparse : strToNat? (get_metadata "last_uid".toList "0".toList db) with
        | none => exact ⟨hp, rfl⟩
        | some n => exact hrest n
    · rw [if_pos (by simp [hconn])]
      exact ⟨hp, rfl⟩

/-- Claim C9: deleting a record removes only the task row and leaves the
uid in `ProcessedIdSet`; afterwards `add_task` with that uid refuses to
insert, and a whole later cycle — however `m` is re-delivered — creates
no new record for `m`. -/
theorem spec_C9 (db : DB) (tid : Nat) (m : List Char) (hm : m ≠ [])
    (hp : m ∈ db.processed_uids) :
    (delete_task tid db).processed_uids = db.processed_uids ∧
    (∀ t s sn now, add_task t s sn (some m) now (delete_task tid db)
      = (false, delete_task tid db)) ∧
    (∀ env : PollEnv,
      m ∈ (check_mail env (delete_task tid db)).1.processed_uids ∧
      uidRecordCount m (check_mail env (delete_task tid db)).1
        = uidRecordCount m (delete_task tid db)) := by
  have hp' : m ∈ (delete_task tid db).processed_uids := hp
  have hproc : is_uid_processed m (delete_task tid db) = true := by
    unfold is_uid_processed
    exact decide_eq_true hp'
  refine ⟨rfl, ?_, ?_⟩
  · intro t s sn now
    exact add_task_skip hm t s sn now (delete_task tid db) hproc
  · intro env
    exact check_mail_processed_stable env (delete_task tid db) m hp'

/-- Witness for C9: delete the record created for uid 7, re-deliver 7. -/
theorem spec_C9_witness :
    add_task "x".toList [] [] (some "7".toList) 5
      (delete_task 1 { tasks := [{ id := 1, email_uid := some "7".toList, subject := [],
                                   snippet := [], task_text := "t".toList, created_at := 0,
                                   completed_at := none, is_completed := false,
                                   archived_at := none }],
                       processed_uids := ["7".toList], metadata := [], nextId := 2 })
      = (false, delete_task 1 { tasks := [{ id := 1, email_uid := some "7".toList,
                                            subject := [], snippet := [],
                                            task_text := "t".toList, created_at := 0,
                                            completed_at := none, is_completed := false,
                                            archived_at := none }],
                                processed_uids := ["7".toList], metadata := [],
                                nextId := 2 }) :=
  (spec_C9 _ 1 "7".toList (by decide) (by decide)).2.1 "x".toList [] [] 5

/-! ### Claim C5: idempotent archival -/

theorem eq_nil_of_isEmpty {α : Type} {l : List α} (h : l.isEmpty = true) : l = [] := by
  cases l with
  | nil => rfl
  | cons a t => simp [List.isEmpty] at h

theorem activeRowsSorted_mem {db : DB} {t : Task} :
    t ∈ activeRowsSorted db ↔ t ∈ db.tasks ∧ t.archived_at = none := by
  unfold activeRowsSorted
  rw [List.mem_insertionSort, List.mem_filter]
  simp

/-- After one `list_active_tasks` pass, no still-active task is a stale
completed one. -/
theorem list_active_no_stale (retention now : Int) (db : DB) :
    ∀ t ∈ (list_active_tasks retention now db).2.2.2.tasks,
      t.archived_at = none → staleCompleted (now - retention * 3600) t = false := by
  unfold list_active_tasks
  dsimp only
  by_cases harch : (((activeRowsSorted db).filter
      (staleCompleted (now - retention * 3600))).map (fun t => t.id)).isEmpty
  · rw [if_pos harch]
    dsimp only
    intro t ht hnone
    have hfil : (activeRowsSorted db).filter (staleCompleted (now - retention * 3600)) = [] :=
      List.map_eq_nil_iff.mp (eq_nil_of_isEmpty harch)
    have hmem : t ∈ activeRowsSorted db := activeRowsSorted_mem.mpr ⟨ht, hnone⟩
    have := List.filter_eq_nil_iff.mp hfil t hmem
    simpa using this
  · rw [if_neg harch]
    dsimp only
    intro t ht hnone
    rcases List.mem_map.1 ht with ⟨t0, ht0, heq⟩
    by_cases hid : t0.id ∈ ((activeRowsSorted db).filter
        (staleCompleted (now - retention * 3600))).map (fun t => t.id)
    · rw [if_pos hid] at heq
      rw [← heq] at hnone
      simp at hnone
    · rw [if_neg hid] at heq
      subst heq
      by_contra hstale
      have hstale' : staleCompleted (now - retention * 3600) t0 = true := by
        simpa using hstale
      apply hid
      rw [List.mem_map]
      refine ⟨t0, ?_, rfl⟩
      rw [List.mem_filter]
      exact ⟨activeRowsSorted_mem.mpr ⟨ht0, hnone⟩, hstale'⟩

/-- When no active task is stale, `list_active_tasks` archives nothing
and returns the store unchanged. -/
theorem list_active_of_no_stale (retention now : Int) (db : DB)
    (h : ∀ t ∈ db.tasks, t.archived_at = none →
      staleCompleted (now - retention * 3600) t = false) :
    list_active_tasks retention now db
      = ((activeRowsSorted db).map rowView,
         db.tasks.countP (fun t => decide (t.archived_at = none) && !t.is_completed),
         db.tasks.countP (fun t => decide (t.archived_at = none) && t.is_completed),
         db) := by
  unfold list_active_tasks
  dsimp only
  have hfil : (activeRowsSorted db).filter (staleCompleted (now - retention * 3600)) = [] := by
    rw [List.filter_eq_nil_iff]
    intro t htm
    have hmem := activeRowsSorted_mem.mp htm
    rw [h t hmem.1 hmem.2]
    simp
  rw [hfil]
  rw [if_pos (by rfl)]

/-- The rows and counts returned by `list_active_tasks` are those of the
store it leaves behind. -/
theorem list_active_components (retention now : Int) (db : DB) :
    (list_active_tasks retention now db).1
      = (activeRowsSorted (list_active_tasks retention now db).2.2.2).map rowView ∧
    (list_active_tasks retention now db).2.1
      = (list_active_tasks retention now db).2.2.2.tasks.countP
          (fun t => decide (t.archived_at = none) && !t.is_completed) ∧
    (list_active_tasks retention now db).2.2.1
      = (list_active_tasks retention now db).2.2.2.tasks.countP
          (fun t => decide (t.archived_at = none) && t.is_completed) := by
  unfold list_active_tasks
  dsimp only
  by_cases harch : (((activeRowsSorted db).filter
      (staleCompleted (now - retention * 3600))).map (fun t => t.id)).isEmpty
  · rw [if_pos harch]
    exact ⟨rfl, rfl, rfl⟩
  · rw [if_neg harch]
    exact ⟨rfl, rfl, rfl⟩

/-- Claim C5: calling `list_active_tasks` twice in immediate succession
(same clock reading, no intervening completions) returns the same rows
and the same active/completed counts, and the second call performs no
archival side effect (the store is unchanged). -/
theorem spec_C5 (retention_hours now : Int) (db : DB) :
    (list_active_tasks retention_hours now
        (list_active_tasks retention_hours now db).2.2.2).1
      = (list_active_tasks retention_hours now db).1 ∧
    (list_active_tasks retention_hours now
        (list_active_tasks retention_hours now db).2.2.2).2.1
      = (list_active_tasks retention_hours now db).2.1 ∧
    (list_active_tasks retention_hours now
        (list_active_tasks retention_hours now db).2.2.2).2.2.1
      = (list_active_tasks retention_hours now db).2.2.1 ∧
    (list_active_tasks retention_hours now
        (list_active_tasks retention_hours now db).2.2.2).2.2.2
      = (list_active_tasks retention_hours now db).2.2.2 := by
  have h1 := list_active_no_stale retention_hours now db
  have h2 := list_active_of_no_stale retention_hours now
    (list_active_tasks retention_hours now db).2.2.2 h1
  have h3 := list_active_components retention_hours now db
  rw [h2]
  exact ⟨h3.1.symm, h3.2.1.symm, h3.2.2.symm, rfl⟩

end AiEmailSticky
